import Mathlib

/-!
# Catalog Resolution & Resilient Client — verification development

Shallow embedding of the pricing calculator, retrying HTTP client,
blueprint-listing degradation ladder, response cache, color normalizer and
variant matcher of the `printify-mcp-web` repository, together with proofs
of the specified properties.

Conventions of the embedding:
* JavaScript numbers are modelled by `JNum`: either an exact rational or one
  of the IEEE special values `NaN`, `+Infinity`, `-Infinity` (the code under
  study only produces non-finite values through division by zero and failed
  parses, so exact rationals are a faithful carrier for the finite case).
  Rational arithmetic is implemented through `mkRat` / `Rat.divInt`
  num/den formulas, which the kernel can evaluate; the lemmas `qadd_eq`,
  `qsub_eq`, `qdiv_eq` prove these agree with the ordinary `ℚ` operations.
* JavaScript strings are Lean `String`s; the string helpers used by the code
  (`toLowerCase`, `trim`, `includes`, `replace('%','')`, regular-expression
  tests) are modelled by structurally recursive functions on `List Char`.
* Asynchronous I/O is modelled by oracles: a function from the attempt
  number to that attempt's outcome. Sleeps are recorded as data (delays in
  milliseconds) rather than performed.
-/

namespace PrintifyMCP

/-! ## Kernel-evaluable rational arithmetic -/

/-- Rational addition, written as a num/den formula so it evaluates by
kernel reduction.  `qadd_eq` proves it is ordinary addition on `ℚ`. -/
def qadd (a b : ℚ) : ℚ := mkRat (a.num * b.den + b.num * a.den) (a.den * b.den)

/-- Rational subtraction as a num/den formula; see `qsub_eq`. -/
def qsub (a b : ℚ) : ℚ := mkRat (a.num * b.den - b.num * a.den) (a.den * b.den)

/-- Rational division as a num/den formula; see `qdiv_eq`.  Like JavaScript's
`Rat` counterpart in Lean, `qdiv a 0 = 0`, but the embedding never reaches
that case (division by zero is routed to `±Infinity`/`NaN` first). -/
def qdiv (a b : ℚ) : ℚ := Rat.divInt (a.num * b.den) (a.den * b.num)

theorem qadd_eq (a b : ℚ) : qadd a b = a + b := (Rat.add_def' a b).symm

theorem qsub_eq (a b : ℚ) : qsub a b = a - b := (Rat.sub_def' a b).symm

theorem qdiv_eq (a b : ℚ) : qdiv a b = a / b := (Rat.div_def' a b).symm

/-! ## JavaScript number model -/

/-- A JavaScript number: an exact rational, or one of the IEEE special
values `NaN`, `+Infinity`, `-Infinity`. -/
inductive JNum where
  | nan
  | posInf
  | negInf
  | num (q : ℚ)
deriving DecidableEq, Repr

/-- JavaScript subtraction `a - b` lifted to `JNum`. -/
def jsub : JNum → JNum → JNum
  | .nan, _ => .nan
  | _, .nan => .nan
  | .num a, .num b => .num (qsub a b)
  | .num _, .posInf => .negInf
  | .num _, .negInf => .posInf
  | .posInf, .num _ => .posInf
  | .negInf, .num _ => .negInf
  | .posInf, .posInf => .nan
  | .posInf, .negInf => .posInf
  | .negInf, .posInf => .negInf
  | .negInf, .negInf => .nan

/-- JavaScript division `a / b` lifted to `JNum`.  Exact zero is treated as
IEEE `+0` (the only zero divisor the embedded code can produce is
`1 - margin` with `margin = 1`, which is `+0` in JavaScript). -/
def jdiv : JNum → JNum → JNum
  | .nan, _ => .nan
  | _, .nan => .nan
  | .num a, .num b =>
      if b = 0 then (if a = 0 then .nan else if 0 < a then .posInf else .negInf)
      else .num (qdiv a b)
  | .num _, .posInf => .num 0
  | .num _, .negInf => .num 0
  | .posInf, .num b => if 0 ≤ b then .posInf else .negInf
  | .negInf, .num b => if 0 ≤ b then .negInf else .posInf
  | .posInf, .posInf => .nan
  | .posInf, .negInf => .nan
  | .negInf, .posInf => .nan
  | .negInf, .negInf => .nan

/-- JavaScript `Math.round`: for finite arguments it returns
`⌊x + 1/2⌋` (half-way cases round toward `+∞`); the special values are
returned unchanged. -/
def jround : JNum → JNum
  | .num q => .num (mkRat ⌊qadd q (mkRat 1 2)⌋ 1)
  | x => x

/-- `jround` on a finite value is `⌊q + 1/2⌋` as an ordinary rational. -/
theorem jround_num (q : ℚ) : jround (.num q) = .num ((⌊q + 1/2⌋ : ℤ) : ℚ) := by
  simp only [jround, qadd_eq, Rat.mkRat_one]
  norm_num [Rat.mkRat_eq_div]

/-- The JavaScript comparison `x > 1` (false on `NaN`). -/
def jgtOne : JNum → Bool
  | .num q => decide (1 < q)
  | .posInf => true
  | .negInf => false
  | .nan => false

/-! ## String helpers (modelling the JavaScript built-ins used) -/

/-- `String.prototype.includes`: `strContains s pat` is true iff `pat`
occurs as a contiguous substring of `s`. -/
def strContains (s pat : String) : Bool :=
  let l := s.toList
  let p := pat.toList
  (List.range (l.length + 1)).any (fun i => decide ((l.drop i).take p.length = p))

/-- `String.prototype.toLowerCase`, modelled character-wise (all strings in
the embedded code are ASCII). -/
def strToLower (s : String) : String :=
  ⟨s.toList.map Char.toLower⟩

/-- `String.prototype.toUpperCase`, modelled character-wise. -/
def strToUpper (s : String) : String :=
  ⟨s.toList.map Char.toUpper⟩

/-- `String.prototype.trim`: strip leading and trailing whitespace. -/
def strTrim (s : String) : String :=
  ⟨((s.toList.dropWhile Char.isWhitespace).reverse.dropWhile Char.isWhitespace).reverse⟩

/-- `s.replace('%','')` with a string pattern replaces only the *first*
occurrence of `'%'`. -/
def removeFirstPercent : List Char → List Char
  | [] => []
  | c :: r => if c = '%' then r else c :: removeFirstPercent r

/-- `profitMargin.replace('%','')`. -/
def replaceFirstPercent (s : String) : String :=
  ⟨removeFirstPercent s.toList⟩

/-! ## `parseFloat` model -/

/-- Numeric value of a decimal digit. -/
def digitVal (c : Char) : ℕ := c.toNat - ('0').toNat

/-- Value of a digit list read in base 10 (`"123"` ↦ `123`). -/
def decDigitsVal (l : List Char) : ℕ :=
  l.foldl (fun acc c => 10 * acc + digitVal c) 0

/-- ECMAScript `parseFloat` on the character list: skip leading whitespace,
accept an optional sign followed by a decimal literal
(`digits[.digits]` or `.digits`), ignore any trailing characters, and
return `none` (`NaN`) when no digit was consumed.  The value
`sign * (intPart.fracPart)` is assembled exactly (the embedding works with
exact rationals where JavaScript would take the nearest double).  Exponent
suffixes and `"Infinity"` literals, which no call site produces, are not
modelled. -/
def parseFloatChars (l : List Char) : Option ℚ :=
  let l1 := l.dropWhile Char.isWhitespace
  let signAndRest : ℤ × List Char :=
    match l1 with
    | '-' :: r => (-1, r)
    | '+' :: r => (1, r)
    | _ => (1, l1)
  let sgn := signAndRest.1
  let l2 := signAndRest.2
  let intPart := l2.takeWhile Char.isDigit
  let rest := l2.dropWhile Char.isDigit
  let fracPart :=
    match rest with
    | '.' :: r => r.takeWhile Char.isDigit
    | _ => []
  if intPart.isEmpty && fracPart.isEmpty then none
  else
    some (mkRat (sgn * ((decDigitsVal intPart : ℤ) * 10 ^ fracPart.length
      + (decDigitsVal fracPart : ℤ))) (10 ^ fracPart.length))

/-- JavaScript `parseFloat` on a string, `NaN` when unparseable. -/
def parseFloat (s : String) : JNum :=
  match parseFloatChars s.toList with
  | none => .nan
  | some q => .num q

/-! ## PricingCalculator (`PrintifyAPI.calculatePricing`) -/

/-- The `profitMargin: number | string` argument.  Numeric arguments are
modelled as exact rationals. -/
inductive MarginInput where
  | ofNum (x : ℚ)
  | ofStr (s : String)
deriving DecidableEq, Repr

/-- First step of `calculatePricing`:
`typeof profitMargin === 'string' ? parseFloat(profitMargin.replace('%','')) / 100 : profitMargin`. -/
def marginOfInput : MarginInput → JNum
  | .ofNum x => .num x
  | .ofStr s => jdiv (parseFloat (replaceFirstPercent s)) (.num 100)

/-- Margin normalization of `calculatePricing`: after the string/number
conversion, `if (margin > 1) { margin = margin / 100; }`. -/
def normalizeMargin (m : MarginInput) : JNum :=
  let margin := marginOfInput m
  if jgtOne margin then jdiv margin (.num 100) else margin

/-- The `{ price, profit }` object returned by `calculatePricing`
(both in cents). -/
structure PricingResult where
  price : JNum
  profit : JNum
deriving DecidableEq, Repr

/-- `PrintifyAPI.calculatePricing(baseCost, profitMargin)`:
`price = Math.round(baseCost / (1 - margin))`, `profit = price - baseCost`.
The function performs no validation and always returns. -/
def calculatePricing (baseCost : ℚ) (profitMargin : MarginInput) : PricingResult :=
  let margin := normalizeMargin profitMargin
  let price := jround (jdiv (.num baseCost) (jsub (.num 1) margin))
  let profit := jsub price (.num baseCost)
  { price := price, profit := profit }

/-! ## Pricing theorems (claims C1–C4) -/

/-- **C1, counterexample.** The claim says `calculatePricing` fails with a
`ValidationError` whenever the margin normalizes to a value ≥ 1 or cannot be
parsed.  In fact the function has no failure path at all: a numeric margin
of `1` (or the string `"100%"`), which divides by zero, returns a
`PricingResult` whose components are `Infinity`, and an unparseable margin
string returns a `PricingResult` whose components are `NaN`. -/
theorem calculatePricing_no_validation_counterexample :
    calculatePricing 1200 (.ofNum 1) = { price := .posInf, profit := .posInf } ∧
    calculatePricing 1200 (.ofStr "100%") = { price := .posInf, profit := .posInf } ∧
    calculatePricing 1200 (.ofStr "not a number") = { price := .nan, profit := .nan } := by
  decide

/-- **C1, amended.** `calculatePricing` performs no validation and never
fails: for every positive base cost, a margin of exactly `1` yields
`price = profit = Infinity`, and every margin string whose `'%'`-stripped
form does not parse yields `price = profit = NaN`; in both cases a
`PricingResult` is returned rather than a `ValidationError` being raised. -/
theorem calculatePricing_no_validation (b : ℚ) (s : String) (hb : 0 < b)
    (hs : parseFloat (replaceFirstPercent s) = .nan) :
    calculatePricing b (.ofNum 1) = { price := .posInf, profit := .posInf } ∧
    calculatePricing b (.ofStr s) = { price := .nan, profit := .nan } := by
  constructor
  · have h1 : jgtOne (.num 1) = false := by decide
    have hq : qsub 1 1 = 0 := by rw [qsub_eq]; norm_num
    simp only [calculatePricing, normalizeMargin, marginOfInput, h1, Bool.false_eq_true,
      if_false, jsub, hq, jdiv, if_pos rfl, if_neg (ne_of_gt hb), if_pos hb, jround]
    simp
  · simp only [calculatePricing, normalizeMargin, marginOfInput, hs, jdiv, jgtOne,
      Bool.false_eq_true, if_false, jsub, jround]

theorem calculatePricing_no_validation_witness :
    (0 : ℚ) < 1200 ∧ parseFloat (replaceFirstPercent "abc") = .nan ∧
    calculatePricing 1200 (.ofNum 1) = { price := .posInf, profit := .posInf } ∧
    calculatePricing 1200 (.ofStr "abc") = { price := .nan, profit := .nan } :=
  ⟨by decide, by decide,
    (calculatePricing_no_validation 1200 "abc" (by decide) (by decide)).1,
    (calculatePricing_no_validation 1200 "abc" (by decide) (by decide)).2⟩

/-- **C2, counterexample.** The claim says a bare numeric margin `m > 1` is
used directly as the fraction, so that `calculatePricing(1200, 50)` would be
`round(1200 / (1 - 50)) = -24`.  In fact the code divides such a margin by
100: the call returns `{price := 2400, profit := 1200}` (treating `50` as
50%), which differs from the direct-fraction value. -/
theorem calculatePricing_bare_margin_counterexample :
    calculatePricing 1200 (.ofNum 50) = { price := .num 2400, profit := .num 1200 } ∧
    jround (jdiv (.num 1200) (jsub (.num 1) (.num 50))) = .num (-24) ∧
    (calculatePricing 1200 (.ofNum 50)).price
      ≠ jround (jdiv (.num 1200) (jsub (.num 1) (.num 50))) := by
  decide

/-- **C2, amended.** For every numeric margin `m > 1`, `calculatePricing`
divides `m` by 100 and uses `m / 100` as the fraction, so
`price = round(baseCost / (1 - m/100))`; in particular a bare `50` is
treated as 50% and agrees with the string `"50%"`. -/
theorem calculatePricing_bare_margin_divided (b m : ℚ) (hm : 1 < m) :
    normalizeMargin (.ofNum m) = .num (m / 100) ∧
    calculatePricing b (.ofNum m) =
      { price := jround (jdiv (.num b) (jsub (.num 1) (.num (m / 100)))),
        profit := jsub (jround (jdiv (.num b) (jsub (.num 1) (.num (m / 100))))) (.num b) } ∧
    calculatePricing b (.ofNum 50) = calculatePricing b (.ofStr "50%") := by
  have hgt : jgtOne (.num m) = true := by simp [jgtOne, hm]
  have h100 : (100 : ℚ) ≠ 0 := by norm_num
  have hnorm : normalizeMargin (.ofNum m) = .num (m / 100) := by
    simp only [normalizeMargin, marginOfInput, hgt, if_true, jdiv, if_neg h100, qdiv_eq]
  refine ⟨hnorm, ?_, ?_⟩
  · simp only [calculatePricing, hnorm]
  · have h50 : normalizeMargin (.ofNum 50) = normalizeMargin (.ofStr "50%") := by decide
    simp only [calculatePricing, h50]

theorem calculatePricing_bare_margin_divided_witness :
    (1 : ℚ) < 50 ∧ normalizeMargin (.ofNum 50) = .num (50 / 100) :=
  ⟨by decide, (calculatePricing_bare_margin_divided 1200 50 (by decide)).1⟩

/-- **C3.** For a positive base cost and a numeric margin in `(0,1)`,
`calculatePricing` returns `price = round(baseCost / (1 - margin))` and
`profit = price - baseCost`; the percent-string form `"50%"` is equivalent
to the numeric fraction `1/2`, and concretely
`calculatePricing(1200, "50%") = {price := 2400, profit := 1200}`. -/
theorem calculatePricing_fraction (b m : ℚ) (_hb : 0 < b) (_h0 : 0 < m) (h1 : m < 1) :
    calculatePricing b (.ofNum m) =
      { price := .num ((⌊b / (1 - m) + 1/2⌋ : ℤ) : ℚ),
        profit := .num (((⌊b / (1 - m) + 1/2⌋ : ℤ) : ℚ) - b) } ∧
    calculatePricing b (.ofStr "50%") = calculatePricing b (.ofNum (mkRat 1 2)) ∧
    calculatePricing 1200 (.ofStr "50%") = { price := .num 2400, profit := .num 1200 } := by
  refine ⟨?_, ?_, by decide⟩
  · have hgt : jgtOne (.num m) = false := by
      simp [jgtOne, not_lt]
      linarith
    have hne : (1 : ℚ) - m ≠ 0 := by
      intro h
      have : m = 1 := by linarith [sub_eq_zero.mp h]
      exact absurd this (by linarith)
    have hq : qsub 1 m = 1 - m := by rw [qsub_eq]
    simp only [calculatePricing, normalizeMargin, marginOfInput, hgt, Bool.false_eq_true,
      if_false, jsub, hq, jdiv, if_neg hne, qdiv_eq, jround_num, qsub_eq]
  · have h50 : normalizeMargin (.ofStr "50%") = normalizeMargin (.ofNum (mkRat 1 2)) := by
      decide
    simp only [calculatePricing, h50]

theorem calculatePricing_fraction_witness :
    (0 : ℚ) < 1200 ∧ (0 : ℚ) < mkRat 1 2 ∧ mkRat 1 2 < 1 ∧
    calculatePricing 1200 (.ofStr "50%") = { price := .num 2400, profit := .num 1200 } :=
  ⟨by decide, by decide, by decide,
    (calculatePricing_fraction 1200 (mkRat 1 2) (by decide) (by decide) (by decide)).2.2⟩

/-- **C4.** For every string margin, `calculatePricing` strips the (first)
`'%'` character and then always divides the parsed number by 100, whether or
not a percent sign was present; hence the string `"0.5"` is interpreted as
the fraction `1/200` (0.5%), and `calculatePricing(1200, "0.5")` differs
from `calculatePricing(1200, 0.5)` — even though the caller-facing pricing
tool documents `'0.5'` as an accepted margin string. -/
theorem calculatePricing_string_always_divided :
    (∀ s : String,
      marginOfInput (.ofStr s) = jdiv (parseFloat (replaceFirstPercent s)) (.num 100)) ∧
    normalizeMargin (.ofStr "0.5") = .num (mkRat 1 200) ∧
    normalizeMargin (.ofNum (mkRat 1 2)) = .num (mkRat 1 2) ∧
    calculatePricing 1200 (.ofStr "0.5") = { price := .num 1206, profit := .num 6 } ∧
    calculatePricing 1200 (.ofStr "0.5") ≠ calculatePricing 1200 (.ofNum (mkRat 1 2)) :=
  ⟨fun _ => rfl, by decide, by decide, by decide, by decide⟩

theorem calculatePricing_string_always_divided_witness :
    marginOfInput (.ofStr "0.5")
      = jdiv (parseFloat (replaceFirstPercent "0.5")) (.num 100) :=
  calculatePricing_string_always_divided.1 "0.5"

/-! ## ColorNormalizer (`COLOR_MAPPINGS`, `normalizeColorName`) -/

/-- The static `COLOR_MAPPINGS` table: informal color synonym ↦ standard
color. -/
def COLOR_MAPPINGS : List (String × String) := [
  ("carolina blue", "blue"), ("sky blue", "blue"), ("baby blue", "blue"),
  ("royal blue", "blue"), ("navy blue", "blue"), ("ocean blue", "blue"),
  ("cobalt", "blue"), ("azure", "blue"), ("teal", "blue"), ("turquoise", "blue"),
  ("jet black", "black"), ("midnight", "black"), ("charcoal", "gray"),
  ("heather gray", "gray"), ("heather grey", "gray"), ("silver", "gray"),
  ("ash", "gray"), ("slate", "gray"),
  ("off white", "white"), ("off-white", "white"), ("ivory", "white"),
  ("cream", "white"), ("natural", "white"), ("snow", "white"),
  ("cardinal", "red"), ("scarlet", "red"), ("crimson", "red"),
  ("burgundy", "red"), ("cherry", "red"), ("ruby", "red"), ("maroon", "red"),
  ("forest green", "green"), ("olive", "green"), ("emerald", "green"),
  ("mint", "green"), ("sage", "green"), ("lime", "green"),
  ("kelly green", "green"), ("hunter green", "green"),
  ("rose", "pink"), ("blush", "pink"), ("fuchsia", "pink"),
  ("magenta", "pink"), ("coral", "pink"), ("salmon", "pink"),
  ("violet", "purple"), ("lavender", "purple"), ("plum", "purple"),
  ("eggplant", "purple"), ("orchid", "purple"),
  ("gold", "yellow"), ("mustard", "yellow"), ("lemon", "yellow"),
  ("butter", "yellow"), ("sunshine", "yellow"),
  ("rust", "orange"), ("burnt orange", "orange"), ("tangerine", "orange"),
  ("peach", "orange"), ("apricot", "orange"),
  ("tan", "brown"), ("beige", "brown"), ("taupe", "brown"),
  ("chocolate", "brown"), ("coffee", "brown"), ("mocha", "brown")]

/-- The `standardColors` list of `normalizeColorName` (note it contains both
spellings of gray). -/
def standardColors : List String :=
  ["white", "black", "gray", "grey", "red", "blue", "green", "pink",
   "purple", "yellow", "orange", "brown", "navy"]

/-- `COLOR_MAPPINGS[lowerColor]`: first-match lookup in the table. -/
def lookupColorMapping (k : String) : Option String :=
  (COLOR_MAPPINGS.find? (fun p => decide (p.1 = k))).map Prod.snd

/-- `normalizeColorName(color)`: lower-case and trim; return standard colors
unchanged (`"grey"` ↦ `"gray"`); otherwise consult `COLOR_MAPPINGS`;
otherwise return the first standard color contained in the input as a
substring; otherwise return the lower-cased input. -/
def normalizeColorName (color : String) : String :=
  let lowerColor := strTrim (strToLower color)
  if standardColors.any (fun sc => decide (sc = lowerColor)) then
    if lowerColor = "grey" then "gray" else lowerColor
  else
    match lookupColorMapping lowerColor with
    | some mapped => mapped
    | none =>
      match standardColors.find? (fun sc => strContains lowerColor sc) with
      | some standardColor => if standardColor = "grey" then "gray" else standardColor
      | none => lowerColor

/-- The canonical color set named by the specification: `standardColors`
without the alternative spelling `"grey"`. -/
def canonicalColors : List String :=
  ["white", "black", "gray", "red", "blue", "green", "pink",
   "purple", "yellow", "orange", "brown", "navy"]

/-- **C10.** `normalizeColorName` is the identity on every canonical color
(white, black, gray, red, blue, green, pink, purple, yellow, orange, brown,
navy), maps the alternative spelling `"grey"` to `"gray"`, and maps every
`(synonym, canonical)` pair of the static `COLOR_MAPPINGS` table to its
canonical color. -/
theorem normalizeColorName_canonical_and_synonyms :
    (∀ c ∈ canonicalColors, normalizeColorName c = c) ∧
    normalizeColorName "grey" = "gray" ∧
    (∀ p ∈ COLOR_MAPPINGS, normalizeColorName p.1 = p.2) := by
  decide

theorem normalizeColorName_canonical_and_synonyms_witness :
    ("white" ∈ canonicalColors ∧ normalizeColorName "white" = "white") ∧
    (("heather grey", "gray") ∈ COLOR_MAPPINGS ∧
      normalizeColorName "heather grey" = "gray") :=
  ⟨⟨by decide,
      normalizeColorName_canonical_and_synonyms.1 "white" (by decide)⟩,
    ⟨by decide,
      normalizeColorName_canonical_and_synonyms.2.2 ("heather grey", "gray") (by decide)⟩⟩

/-! ## VariantMatcher (`create-product-simple` variant filtering) -/

/-- A catalog variant as used by the filtering pipeline. -/
structure Variant where
  id : ℕ
  title : String
  cost : ℚ
deriving DecidableEq, Repr

/-- The `colorVariations` table of `enhancedColorMatch`: canonical color ↦
known title spellings. -/
def colorVariationsTable : List (String × List String) := [
  ("white", ["white", "solid white", "natural", "cream", "ivory", "off-white", "snow"]),
  ("black", ["black", "solid black", "dark", "jet black", "midnight"]),
  ("gray", ["gray", "grey", "heather gray", "heather grey", "charcoal", "silver", "ash", "slate"]),
  ("red", ["red", "cardinal", "scarlet", "crimson", "burgundy", "cherry", "ruby", "maroon"]),
  ("blue", ["blue", "navy", "royal blue", "sapphire", "carolina blue", "sky blue",
    "baby blue", "ocean", "cobalt", "azure", "teal"]),
  ("green", ["green", "forest", "olive", "emerald", "mint", "sage", "lime",
    "kelly green", "hunter green"]),
  ("pink", ["pink", "rose", "blush", "fuchsia", "magenta", "coral", "salmon"]),
  ("purple", ["purple", "violet", "lavender", "plum", "eggplant", "orchid"]),
  ("yellow", ["yellow", "gold", "mustard", "lemon", "butter", "sunshine"]),
  ("orange", ["orange", "rust", "burnt orange", "tangerine", "peach", "apricot"]),
  ("brown", ["brown", "tan", "beige", "taupe", "chocolate", "coffee", "mocha"])]

/-- `colorVariations[colorLower] || []`. -/
def colorVariations (c : String) : List String :=
  ((colorVariationsTable.find? (fun p => decide (p.1 = c))).map Prod.snd).getD []

/-- `enhancedColorMatch(variantTitle, requestedColor)`: direct substring
match on the lower-cased title, else any known spelling of the requested
color occurs in the title. -/
def enhancedColorMatch (variantTitle requestedColor : String) : Bool :=
  let titleLower := strToLower variantTitle
  let colorLower := strToLower requestedColor
  if strContains titleLower colorLower then true
  else (colorVariations colorLower).any (fun v => strContains titleLower v)

/-- A character of the regular-expression class `[/\-\s]` (the separators
between color and size in a variant title). -/
def isSepChar (c : Char) : Bool := c = '/' || c = '-' || c.isWhitespace

/-- A character of the regular-expression class `\w` (`[A-Za-z0-9_]`). -/
def isWordChar (c : Char) : Bool := c.isAlphanum || c = '_'

/-- Whether the last character of `l` belongs to `[/\-\s]`.  A list matches
the regular expression fragment `[/\-\s]\s*` as a suffix iff it is nonempty
and its last character is a separator (if that character is whitespace it
serves as the `[/\-\s]` char itself, whitespace being in the class). -/
def lastIsSep (l : List Char) : Bool :=
  match l.getLast? with
  | some c => isSepChar c
  | none => false

/-- Whether the first character of `l` belongs to `[/\-\s]`; dually to
`lastIsSep`, this characterises matching `\s*[/\-\s]` as a prefix. -/
def headIsSep (l : List Char) : Bool :=
  match l.head? with
  | some c => isSepChar c
  | none => false

/-- Occurrence test: the pattern `p` occurs in `t` starting at `i`. -/
def occursAt (t p : List Char) (i : ℕ) : Bool :=
  decide ((t.drop i).take p.length = p)

/-- The regular expression `[/\-\s]\s*SIZE\s*$` (size at end of title). -/
def sizeAtEnd (t s : List Char) : Bool :=
  (List.range (t.length + 1)).any (fun i =>
    occursAt t s i && lastIsSep (t.take i)
      && (t.drop (i + s.length)).all Char.isWhitespace)

/-- The regular expression `[/\-\s]\s*SIZE\s*[/\-\s]` (size in the middle). -/
def sizeInMiddle (t s : List Char) : Bool :=
  (List.range (t.length + 1)).any (fun i =>
    occursAt t s i && lastIsSep (t.take i) && headIsSep (t.drop (i + s.length)))

/-- The regular expression `^SIZE\s*[/\-\s]` (size at start of title). -/
def sizeAtStart (t s : List Char) : Bool :=
  occursAt t s 0 && headIsSep (t.drop s.length)

/-- Whether a `\b` word boundary sits immediately before position `i`. -/
def wordBoundaryAt (t : List Char) (i : ℕ) : Bool :=
  let before := if i = 0 then false else match t.get? (i - 1) with
    | some c => isWordChar c
    | none => false
  let here := match t.get? i with
    | some c => isWordChar c
    | none => false
  before != here

/-- The regular expression `\bSIZE\b` (size as a standalone token). -/
def sizeAsWord (t s : List Char) : Bool :=
  (List.range (t.length + 1)).any (fun i =>
    occursAt t s i && wordBoundaryAt t i && wordBoundaryAt t (i + s.length))

/-- `enhancedSizeMatch(variantTitle, requestedSize)`: the four
case-insensitive positional patterns (end / middle / start / word-boundary),
modelled on the lower-cased character lists.  The model treats the
interpolated size as a literal (all call sites pass plain alphanumeric size
tokens, so the regular-expression metacharacter escape question does not
arise). -/
def enhancedSizeMatch (variantTitle requestedSize : String) : Bool :=
  let t := (strToLower variantTitle).toList
  let s := (strToLower requestedSize).toList
  sizeAtEnd t s || sizeInMiddle t s || sizeAtStart t s || sizeAsWord t s

/-- The tier of the progressive fallback ladder that produced the match
(observable in the source through its `debugLog` calls). -/
inductive MatchTier where
  | exact
  | colorOnly
  | commonCombo
  | firstN
deriving DecidableEq, Repr

/-- The initial "enhanced matching" filter: a variant matches if
(no colors requested OR some requested color matches the title) AND
(no sizes requested OR some requested size matches the title). -/
def exactFilter (allVariants : List Variant)
    (requestedColors requestedSizes : List String) : List Variant :=
  allVariants.filter (fun v =>
    (requestedColors.isEmpty
      || requestedColors.any (fun c => enhancedColorMatch v.title c)) &&
    (requestedSizes.isEmpty
      || requestedSizes.any (fun s => enhancedSizeMatch v.title s)))

/-- Fallback 1: colors only, ignoring sizes. -/
def colorOnlyFilter (allVariants : List Variant)
    (requestedColors : List String) : List Variant :=
  allVariants.filter (fun v =>
    requestedColors.any (fun c => enhancedColorMatch v.title c))

/-- The hardcoded safe color set of fallback 2. -/
def commonColors : List String := ["white", "black", "gray", "navy"]

/-- The hardcoded safe size set of fallback 2. -/
def commonSizes : List String := ["M", "L", "XL"]

/-- Fallback 2: variants whose lower-cased title contains a common color and
which match a common size. -/
def commonComboFilter (allVariants : List Variant) : List Variant :=
  allVariants.filter (fun v =>
    commonColors.any (fun c => strContains (strToLower v.title) c) &&
    commonSizes.any (fun s => enhancedSizeMatch v.title s))

/-- The variant-filtering pipeline of `create-product-simple`: the enhanced
filter, then (only on zero matches) the color-only fallback (skipped when no
colors were requested, leaving the empty filter result in place), then the
common-combination fallback, then the first-`min(5, total)` fallback.  The
returned tier records which rung produced the result. -/
def filterVariants (allVariants : List Variant)
    (requestedColors requestedSizes : List String) : List Variant × MatchTier :=
  let filtered := exactFilter allVariants requestedColors requestedSizes
  if filtered.length = 0 then
    let f1 := if requestedColors.length > 0
      then colorOnlyFilter allVariants requestedColors else filtered
    if f1.length = 0 then
      let f2 := commonComboFilter allVariants
      if f2.length = 0 then
        (allVariants.take (min 5 allVariants.length), .firstN)
      else (f2, .commonCombo)
    else (f1, .colorOnly)
  else (filtered, .exact)

example :
    filterVariants
      [⟨1, "White / S", 1⟩, ⟨2, "White / M", 1⟩, ⟨3, "Black / L", 1⟩]
      ["white"] ["M"]
    = ([⟨2, "White / M", 1⟩], .exact) := by decide

example :
    filterVariants [⟨1, "White / S", 1⟩] ["white"] ["XL"]
    = ([⟨1, "White / S", 1⟩], .colorOnly) := by decide

example :
    filterVariants [⟨1, "Navy / L", 1⟩] ["purple"] ["3XL"]
    = ([⟨1, "Navy / L", 1⟩], .commonCombo) := by decide

/-- **C7.** For every non-empty variant list and every requested color/size
filter (including filters matching nothing), the filtering pipeline returns
a non-empty variant list; and whenever the final fallback tier is the one
that fired, the result is exactly the first `min(5, totalVariants)` variants
of the input. -/
theorem filterVariants_never_empty (allVariants : List Variant)
    (requestedColors requestedSizes : List String) (h : allVariants ≠ []) :
    (filterVariants allVariants requestedColors requestedSizes).1 ≠ [] ∧
    ((filterVariants allVariants requestedColors requestedSizes).2 = .firstN →
      (filterVariants allVariants requestedColors requestedSizes).1
        = allVariants.take (min 5 allVariants.length)) := by
  have hpos : 0 < allVariants.length := List.length_pos.mpr h
  simp only [filterVariants]
  split_ifs with h1 h2 h3 h4 h5 <;>
    refine ⟨List.length_pos.mp ?_, ?_⟩ <;> dsimp only <;>
    first
      | (rw [List.length_take]; omega)
      | omega
      | (intro hf; exact hf.elim)
      | (intro hf; rfl)

theorem filterVariants_never_empty_witness :
    ([⟨1, "Foo", 1⟩] : List Variant) ≠ [] ∧
    (filterVariants [⟨1, "Foo", 1⟩] ["purple"] ["3XL"]).1 ≠ [] ∧
    ((filterVariants [⟨1, "Foo", 1⟩] ["purple"] ["3XL"]).2 = .firstN →
      (filterVariants [⟨1, "Foo", 1⟩] ["purple"] ["3XL"]).1
        = ([⟨1, "Foo", 1⟩] : List Variant).take
            (min 5 ([⟨1, "Foo", 1⟩] : List Variant).length)) :=
  ⟨by decide,
    (filterVariants_never_empty [⟨1, "Foo", 1⟩] ["purple"] ["3XL"] (by decide)).1,
    (filterVariants_never_empty [⟨1, "Foo", 1⟩] ["purple"] ["3XL"] (by decide)).2⟩

/-- **C8.** If the exact tier (color AND size filter) yields at least one
variant, the pipeline returns exactly that filter output tagged with the
exact tier and consults no fallback; and in general each fallback tier fires
only when every earlier tier produced zero matches. -/
theorem filterVariants_tier_monotone (allVariants : List Variant)
    (requestedColors requestedSizes : List String) :
    (exactFilter allVariants requestedColors requestedSizes ≠ [] →
      filterVariants allVariants requestedColors requestedSizes
        = (exactFilter allVariants requestedColors requestedSizes, .exact)) ∧
    ((filterVariants allVariants requestedColors requestedSizes).2 = .colorOnly →
      exactFilter allVariants requestedColors requestedSizes = []) ∧
    ((filterVariants allVariants requestedColors requestedSizes).2 = .commonCombo →
      exactFilter allVariants requestedColors requestedSizes = [] ∧
      (requestedColors ≠ [] → colorOnlyFilter allVariants requestedColors = [])) ∧
    ((filterVariants allVariants requestedColors requestedSizes).2 = .firstN →
      exactFilter allVariants requestedColors requestedSizes = [] ∧
      (requestedColors ≠ [] → colorOnlyFilter allVariants requestedColors = []) ∧
      commonComboFilter allVariants = []) := by
  by_cases h1 : (exactFilter allVariants requestedColors requestedSizes).length = 0
  · have he1 : exactFilter allVariants requestedColors requestedSizes = [] :=
      List.length_eq_zero.mp h1
    by_cases h2 : requestedColors.length > 0
    · by_cases h3 : (colorOnlyFilter allVariants requestedColors).length = 0
      · by_cases h4 : (commonComboFilter allVariants).length = 0
        · have he : filterVariants allVariants requestedColors requestedSizes
              = (allVariants.take (min 5 allVariants.length), .firstN) := by
            simp only [filterVariants]
            rw [if_pos h2, if_pos h1, if_pos h3, if_pos h4]
          rw [he]
          refine ⟨fun hne => absurd he1 hne, ?_, ?_,
            fun _ => ⟨he1, fun _ => List.length_eq_zero.mp h3,
              List.length_eq_zero.mp h4⟩⟩ <;> simp
        · have he : filterVariants allVariants requestedColors requestedSizes
              = (commonComboFilter allVariants, .commonCombo) := by
            simp only [filterVariants]
            rw [if_pos h2, if_pos h1, if_pos h3, if_neg h4]
          rw [he]
          refine ⟨fun hne => absurd he1 hne, ?_,
            fun _ => ⟨he1, fun _ => List.length_eq_zero.mp h3⟩, ?_⟩ <;> simp
      · have he : filterVariants allVariants requestedColors requestedSizes
            = (colorOnlyFilter allVariants requestedColors, .colorOnly) := by
          simp only [filterVariants]
          rw [if_pos h2, if_pos h1, if_neg h3]
        rw [he]
        refine ⟨fun hne => absurd he1 hne, fun _ => he1, ?_, ?_⟩ <;> simp
    · have hce : requestedColors = [] := List.length_eq_zero.mp (by omega)
      by_cases h4 : (commonComboFilter allVariants).length = 0
      · have he : filterVariants allVariants requestedColors requestedSizes
            = (allVariants.take (min 5 allVariants.length), .firstN) := by
          simp only [filterVariants]
          rw [if_neg h2, if_pos h1, if_pos h1, if_pos h4]
        rw [he]
        refine ⟨fun hne => absurd he1 hne, ?_, ?_,
          fun _ => ⟨he1, fun hc => absurd hce hc, List.length_eq_zero.mp h4⟩⟩ <;> simp
      · have he : filterVariants allVariants requestedColors requestedSizes
            = (commonComboFilter allVariants, .commonCombo) := by
          simp only [filterVariants]
          rw [if_neg h2, if_pos h1, if_pos h1, if_neg h4]
        rw [he]
        refine ⟨fun hne => absurd he1 hne, ?_,
          fun _ => ⟨he1, fun hc => absurd hce hc⟩, ?_⟩ <;> simp
  · have he : filterVariants allVariants requestedColors requestedSizes
        = (exactFilter allVariants requestedColors requestedSizes, .exact) := by
      simp only [filterVariants]
      rw [if_neg h1]
    rw [he]
    refine ⟨fun _ => rfl, ?_, ?_, ?_⟩ <;> simp

theorem filterVariants_tier_monotone_witness :
    exactFilter [⟨1, "White / S", 1⟩, ⟨2, "White / M", 1⟩, ⟨3, "Black / L", 1⟩]
      ["white"] ["M"] ≠ [] ∧
    filterVariants [⟨1, "White / S", 1⟩, ⟨2, "White / M", 1⟩, ⟨3, "Black / L", 1⟩]
      ["white"] ["M"]
      = (exactFilter [⟨1, "White / S", 1⟩, ⟨2, "White / M", 1⟩, ⟨3, "Black / L", 1⟩]
          ["white"] ["M"], .exact) :=
  ⟨by decide,
    (filterVariants_tier_monotone
      [⟨1, "White / S", 1⟩, ⟨2, "White / M", 1⟩, ⟨3, "Black / L", 1⟩]
      ["white"] ["M"]).1 (by decide)⟩

/-! ## ResponseCache (`PrintifyAPI.getFromCache` / `setCache`)

The `blueprintCache` is a JavaScript `Map` from keys to `CacheEntry`
objects, modelled as an association list in insertion order (`Map.set`
overwrites in place, else appends).  `Date.now()` is passed explicitly as
`now` (milliseconds); `getFromCache` is a pure observer and never removes
entries. -/

/-- `private cacheTimeout = 3600000; // 1 hour cache` -/
def cacheTimeout : ℤ := 3600000

/-- `interface CacheEntry<T> { data: T; timestamp: number }` -/
structure CacheEntry (T : Type) where
  data : T
  timestamp : ℤ
deriving DecidableEq, Repr

/-- The `blueprintCache` map. -/
abbrev Cache (T : Type) : Type := List (String × CacheEntry T)

/-- `getCacheKey(endpoint)`. -/
def getCacheKey (endpoint : String) : String := "cache:" ++ endpoint

/-- `this.blueprintCache.get(key)`. -/
def cacheLookup {T : Type} (cache : Cache T) (key : String) : Option (CacheEntry T) :=
  (cache.find? (fun p => decide (p.1 = key))).map Prod.snd

/-- `getFromCache(key)`: the stored data if present and
`Date.now() - timestamp < cacheTimeout`, else `null`. -/
def getFromCache {T : Type} (cache : Cache T) (key : String) (now : ℤ) : Option T :=
  match cacheLookup cache key with
  | some cached => if now - cached.timestamp < cacheTimeout then some cached.data else none
  | none => none

/-- `setCache(key, data)`: `this.blueprintCache.set(key, { data, timestamp: Date.now() })`. -/
def setCache {T : Type} (cache : Cache T) (key : String) (data : T) (now : ℤ) : Cache T :=
  if cache.any (fun p => decide (p.1 = key)) then
    cache.map (fun p => if p.1 = key then (key, ⟨data, now⟩) else p)
  else cache ++ [(key, ⟨data, now⟩)]

theorem cacheLookup_overwrite {T : Type} (cache : Cache T) (key : String)
    (e : CacheEntry T) (h : cache.any (fun p => decide (p.1 = key)) = true) :
    (cache.map (fun p => if p.1 = key then (key, e) else p)).find?
      (fun p => decide (p.1 = key)) = some (key, e) := by
  induction cache with
  | nil => simp at h
  | cons p rest ih =>
    by_cases hp : p.1 = key
    · simp [List.find?, hp]
    · simp only [List.any_cons, hp, decide_False, Bool.false_or] at h
      simp [List.find?, hp, ih h]

theorem cacheLookup_append {T : Type} (cache : Cache T) (key : String)
    (e : CacheEntry T) (h : cache.any (fun p => decide (p.1 = key)) = false) :
    (cache ++ [(key, e)]).find? (fun p => decide (p.1 = key)) = some (key, e) := by
  induction cache with
  | nil => simp [List.find?]
  | cons p rest ih =>
    simp only [List.any_cons, Bool.or_eq_false_iff, decide_eq_false_iff_not] at h
    simp only [List.cons_append, List.find?]
    rw [decide_eq_false h.1]
    exact ih h.2

theorem cacheLookup_set {T : Type} (cache : Cache T) (key : String) (d : T) (t : ℤ) :
    cacheLookup (setCache cache key d t) key = some ⟨d, t⟩ := by
  by_cases h : cache.any (fun p => decide (p.1 = key)) = true
  · simp [cacheLookup, setCache, h, cacheLookup_overwrite cache key ⟨d, t⟩ h]
  · have h' : cache.any (fun p => decide (p.1 = key)) = false := by
      rwa [Bool.not_eq_true] at h
    simp [cacheLookup, setCache, h', cacheLookup_append cache key ⟨d, t⟩ h']

/-- **C9.** After `setCache` writes `(key, d)` at time `t` — unconditionally
overwriting any existing entry and refreshing its timestamp (third
conjunct) — `getFromCache` returns the stored value while
`now - t < cacheTimeout` (1 hour) and behaves as absent once
`now - t ≥ cacheTimeout`; in the stale case the entry itself is still in
the map (third conjunct again): `getFromCache` never evicts. -/
theorem cache_respects_ttl {T : Type} (cache : Cache T) (key : String)
    (d : T) (t now : ℤ) :
    (now - t < cacheTimeout →
      getFromCache (setCache cache key d t) key now = some d) ∧
    (cacheTimeout ≤ now - t →
      getFromCache (setCache cache key d t) key now = none) ∧
    cacheLookup (setCache cache key d t) key = some ⟨d, t⟩ := by
  have hl := cacheLookup_set cache key d t
  refine ⟨fun h => ?_, fun h => ?_, hl⟩
  · simp [getFromCache, hl, h]
  · simp [getFromCache, hl, not_lt.mpr h]

theorem cache_respects_ttl_witness :
    ((1000 : ℤ) - 0 < cacheTimeout ∧
      getFromCache (setCache ([] : Cache ℕ) (getCacheKey "blueprints:1:10") 42 0)
        (getCacheKey "blueprints:1:10") 1000 = some 42) ∧
    (cacheTimeout ≤ (3600000 : ℤ) - 0 ∧
      getFromCache (setCache ([] : Cache ℕ) (getCacheKey "blueprints:1:10") 42 0)
        (getCacheKey "blueprints:1:10") 3600000 = none) :=
  ⟨⟨by decide,
      (cache_respects_ttl ([] : Cache ℕ) (getCacheKey "blueprints:1:10") 42 0 1000).1
        (by decide)⟩,
    ⟨by decide,
      (cache_respects_ttl ([] : Cache ℕ) (getCacheKey "blueprints:1:10") 42 0 3600000).2.1
        (by decide)⟩⟩

/-! ## ResilientFetcher (`PrintifyAPI.makeRequest`)

`makeRequest` runs `for (let attempt = 0; attempt <= retries; attempt++)`
around `fetch`.  The network is modelled by an oracle
`fetch : ℕ → FetchOutcome` giving each attempt's outcome; the function
returns a `RequestTrace` recording how many fetch attempts were made, the
backoff delays slept between them (in ms), and the final result.  A
`PrintifyError` thrown for a non-retried (or retry-exhausted) HTTP status
propagates out of the `try/catch` unchanged (the `catch` arm matches
neither `AbortError` nor a network error code on it and rethrows), so the
embedding returns it directly from the response branch. -/

/-- `enum PrintifyErrorCode`. -/
inductive PrintifyErrorCode where
  | AUTH_FAILED
  | RATE_LIMIT
  | NOT_FOUND
  | NETWORK_ERROR
  | TIMEOUT
  | VALIDATION_ERROR
  | SERVER_ERROR
  | UNKNOWN_ERROR
deriving DecidableEq, Repr

/-- `class PrintifyError` (the diagnostic message and context payload carry
no behaviour and are omitted). -/
structure PrintifyError where
  code : PrintifyErrorCode
  statusCode : Option ℕ
deriving DecidableEq, Repr

/-- The status-code classification of `makeRequest`'s non-ok branch. -/
def classifyStatus (status : ℕ) : PrintifyErrorCode :=
  if status = 401 then .AUTH_FAILED
  else if status = 429 then .RATE_LIMIT
  else if status = 404 then .NOT_FOUND
  else if status = 400 ∨ status = 422 then .VALIDATION_ERROR
  else if 500 ≤ status then .SERVER_ERROR
  else .UNKNOWN_ERROR

/-- One attempt's outcome at the `fetch` boundary: an HTTP response with a
status, an abort (the 30s timeout fired), a network error with an `errno`
code, or any other thrown error. -/
inductive FetchOutcome where
  | response (status : ℕ)
  | abortError
  | networkError (code : String)
  | otherError
deriving DecidableEq, Repr

/-- Result of `makeRequest`: the parsed body (not modelled) on success, a
classified `PrintifyError`, or a non-`PrintifyError` exception rethrown
as-is. -/
inductive ReqResult where
  | success
  | failure (e : PrintifyError)
  | rethrown
deriving DecidableEq, Repr

/-- Observable trace of one `makeRequest` call. -/
structure RequestTrace where
  attempts : ℕ
  delays : List ℕ
  result : ReqResult
deriving DecidableEq, Repr

/-- `response.ok`: status in `[200, 300)`. -/
def respOk (status : ℕ) : Bool := 200 ≤ status && status < 300

/-- Prefix a trace with one more attempt followed by a backoff sleep. -/
def addAttempt (delay : ℕ) (t : RequestTrace) : RequestTrace :=
  ⟨t.attempts + 1, delay :: t.delays, t.result⟩

/-- The retry loop of `makeRequest`, with `left = retries - attempt`
remaining retries (`attempt < retries` in the source is exactly
`left > 0`). Delays: `min(1000·2^attempt, 5000)` for HTTP 429/5xx and
transient network errors, `min(2000·2^attempt, 10000)` after a timeout. -/
def makeRequestGo (fetch : ℕ → FetchOutcome) : ℕ → ℕ → RequestTrace
  | attempt, left =>
    match fetch attempt with
    | .response status =>
      if respOk status then ⟨1, [], .success⟩
      else if status = 429 ∨ 500 ≤ status then
        match left with
        | l + 1 => addAttempt (min (1000 * 2 ^ attempt) 5000)
            (makeRequestGo fetch (attempt + 1) l)
        | 0 => ⟨1, [], .failure ⟨classifyStatus status, some status⟩⟩
      else ⟨1, [], .failure ⟨classifyStatus status, some status⟩⟩
    | .abortError =>
      match left with
      | l + 1 => addAttempt (min (2000 * 2 ^ attempt) 10000)
          (makeRequestGo fetch (attempt + 1) l)
      | 0 => ⟨1, [], .failure ⟨.TIMEOUT, none⟩⟩
    | .networkError code =>
      if code = "ECONNRESET" ∨ code = "ETIMEDOUT" ∨ code = "EPIPE" then
        match left with
        | l + 1 => addAttempt (min (1000 * 2 ^ attempt) 5000)
            (makeRequestGo fetch (attempt + 1) l)
        | 0 => ⟨1, [], .failure ⟨.NETWORK_ERROR, none⟩⟩
      else ⟨1, [], .rethrown⟩
    | .otherError => ⟨1, [], .rethrown⟩

/-- `makeRequest(endpoint, options, retries = 3)` against the fetch
oracle. -/
def makeRequest (fetch : ℕ → FetchOutcome) (retries : ℕ := 3) : RequestTrace :=
  makeRequestGo fetch 0 retries

theorem makeRequestGo_all500 (fetch : ℕ → FetchOutcome)
    (hf : ∀ n, fetch n = .response 500) :
    ∀ left attempt, makeRequestGo fetch attempt left =
      ⟨left + 1,
        (List.range left).map (fun i => min (1000 * 2 ^ (attempt + i)) 5000),
        .failure ⟨.SERVER_ERROR, some 500⟩⟩ := by
  intro left
  induction left with
  | zero =>
    intro attempt
    simp [makeRequestGo, hf attempt, respOk, classifyStatus]
  | succ l ih =>
    intro attempt
    rw [makeRequestGo, hf attempt]
    simp only [respOk]
    norm_num
    rw [ih (attempt + 1)]
    simp only [addAttempt]
    congr 1
    rw [List.range_succ_eq_map, List.map_cons, List.map_map]
    congr 1
    apply List.map_congr_left
    intro i _
    have h1 : attempt + 1 + i = attempt + (i + 1) := by omega
    simp [Function.comp, Nat.succ_eq_add_one, h1]

/-- **C5.** Against an endpoint returning HTTP 500 on every attempt,
`makeRequest` performs exactly `retries + 1` fetch attempts (4 with the
default `retries = 3`), sleeping `min(1000·2^attempt, 5000)` ms between
consecutive attempts, and ends with an error classified `SERVER_ERROR`. -/
theorem makeRequest_retry_ceiling (fetch : ℕ → FetchOutcome) (retries : ℕ)
    (hf : ∀ n, fetch n = .response 500) :
    makeRequest fetch retries =
      ⟨retries + 1,
        (List.range retries).map (fun a => min (1000 * 2 ^ a) 5000),
        .failure ⟨.SERVER_ERROR, some 500⟩⟩ := by
  have h := makeRequestGo_all500 fetch hf retries 0
  simpa [makeRequest] using h

theorem makeRequest_retry_ceiling_witness :
    (∀ n : ℕ, (fun _ : ℕ => FetchOutcome.response 500) n = .response 500) ∧
    makeRequest (fun _ => .response 500) 3 =
      ⟨4, [1000, 2000, 4000], .failure ⟨.SERVER_ERROR, some 500⟩⟩ := by
  refine ⟨fun _ => rfl, ?_⟩
  rw [makeRequest_retry_ceiling (fun _ => .response 500) 3 (fun _ => rfl)]
  decide

/-! ## `PrintifyAPI.getBlueprints` — limit-degradation ladder

The cache-miss path of `getBlueprints(page, limit)` iterates over
`limitsToTry = [Math.min(limit, 5), 3, 1]`; each logical attempt is a fresh
`makeCatalogRequest` (with its own internal retries), modelled as an oracle
`call` indexed by the attempt position.  A success returns the upstream
payload (the `setCache` write-back and logging are side effects with no
bearing on the returned value and are not part of the trace); an
`AUTH_FAILED` error is rethrown at once; any other error moves to the next
smaller limit; after all three fail the hardcoded fallback object is
*returned* (not thrown). -/

/-- A fallback catalog entry. -/
structure Blueprint where
  id : ℕ
  title : String
  description : String
  brand : String
  model : String
deriving DecidableEq, Repr

/-- The fallback response object (`fallbackFlag` embeds the `_fallback`
field and `message` the `_message` field). -/
structure FallbackBlueprints where
  data : List Blueprint
  current_page : ℕ
  last_page : ℕ
  total : ℕ
  per_page : ℕ
  fallbackFlag : Bool
  message : String
deriving DecidableEq, Repr

/-- The hardcoded `fallbackBlueprints` object of `getBlueprints`. -/
def fallbackBlueprints (page limit : ℕ) : FallbackBlueprints :=
  { data := [
      ⟨5, "Bella + Canvas 3001 Unisex T-Shirt",
        "Premium unisex t-shirt, soft and comfortable", "Bella + Canvas", "3001"⟩,
      ⟨77, "Gildan 18500 Unisex Hoodie", "Classic pullover hoodie", "Gildan", "18500"⟩,
      ⟨6, "Gildan 64000 Unisex T-Shirt", "Affordable basic t-shirt", "Gildan", "64000"⟩,
      ⟨384, "Bella + Canvas 3413 Unisex Triblend T-shirt",
        "Tri-blend fabric for ultimate softness", "Bella + Canvas", "3413"⟩,
      ⟨265, "Ceramic Mug 11oz", "Standard coffee mug, dishwasher safe", "Generic", "11oz"⟩,
      ⟨520, "Poster", "Wall poster in various sizes", "Generic", "Poster"⟩,
      ⟨634, "Tote Bag", "Canvas tote bag for everyday use", "Generic", "Tote"⟩,
      ⟨1037, "Sticker", "Die-cut vinyl stickers", "Generic", "Sticker"⟩],
    current_page := page,
    last_page := 1,
    total := 8,
    per_page := limit,
    fallbackFlag := true,
    message := "Using cached blueprint data. For live catalog, try using get-blueprints with limit=3 or check your connection." }

/-- How a `getBlueprints` call ends: the upstream payload, the returned
fallback object, or a thrown `PrintifyError`. -/
inductive GBResult (α : Type) where
  | upstream (result : α)
  | fallback (f : FallbackBlueprints)
  | failed (e : PrintifyError)
deriving DecidableEq

/-- Observable trace of a cache-miss `getBlueprints` call: the limits used
by the attempts actually made, and the final result. -/
structure GBTrace (α : Type) where
  attemptedLimits : List ℕ
  result : GBResult α
deriving DecidableEq

/-- `const limitsToTry = [Math.min(limit, 5), 3, 1];` -/
def limitsToTry (limit : ℕ) : List ℕ := [min limit 5, 3, 1]

/-- The `for (const currentLimit of limitsToTry)` loop, with `idx` the
position of the current attempt in the original ladder. -/
def getBlueprintsGo {α : Type} (call : ℕ → Except PrintifyError α)
    (page limit : ℕ) : ℕ → List ℕ → GBTrace α
  | _, [] => ⟨[], .fallback (fallbackBlueprints page limit)⟩
  | idx, l :: rest =>
    match call idx with
    | .ok result => ⟨[l], .upstream result⟩
    | .error e =>
      if e.code = .AUTH_FAILED then ⟨[l], .failed e⟩
      else
        let t := getBlueprintsGo call page limit (idx + 1) rest
        ⟨l :: t.attemptedLimits, t.result⟩

/-- `getBlueprints(page = 1, limit = 10)` on a cache miss. -/
def getBlueprints {α : Type} (call : ℕ → Except PrintifyError α)
    (page : ℕ := 1) (limit : ℕ := 10) : GBTrace α :=
  getBlueprintsGo call page limit 0 (limitsToTry limit)

/-- **C6.** On a cache miss, `getBlueprints` tries the listing at limits
`min(limit,5)`, `3`, `1` in that order.  If all three attempts fail for
non-auth reasons, it *returns* the fixed fallback object — tagged
`_fallback = true`, carrying a non-empty human-readable message and exactly
8 blueprint entries.  If some attempt fails with `AUTH_FAILED` (all earlier
attempts having failed non-auth), the ladder stops there and the auth error
propagates. -/
theorem getBlueprints_degradation {α : Type} (call : ℕ → Except PrintifyError α)
    (page limit : ℕ) :
    ((∀ i, i < 3 → ∃ e, call i = .error e ∧ e.code ≠ .AUTH_FAILED) →
      getBlueprints call page limit
        = ⟨[min limit 5, 3, 1], .fallback (fallbackBlueprints page limit)⟩ ∧
      (fallbackBlueprints page limit).fallbackFlag = true ∧
      (fallbackBlueprints page limit).message ≠ "" ∧
      (fallbackBlueprints page limit).data.length = 8) ∧
    (∀ i e, i < 3 → call i = .error e → e.code = .AUTH_FAILED →
      (∀ j, j < i → ∃ e', call j = .error e' ∧ e'.code ≠ .AUTH_FAILED) →
      (getBlueprints call page limit).result = .failed e ∧
      (getBlueprints call page limit).attemptedLimits = (limitsToTry limit).take (i + 1)) := by
  constructor
  · intro h
    obtain ⟨e0, hc0, ha0⟩ := h 0 (by omega)
    obtain ⟨e1, hc1, ha1⟩ := h 1 (by omega)
    obtain ⟨e2, hc2, ha2⟩ := h 2 (by omega)
    refine ⟨?_, rfl, by simp [fallbackBlueprints], rfl⟩
    simp [getBlueprints, limitsToTry, getBlueprintsGo, hc0, hc1, hc2, ha0, ha1, ha2]
  · intro i e hi hc ha hprev
    interval_cases i
    · constructor <;>
        simp [getBlueprints, limitsToTry, getBlueprintsGo, hc, ha]
    · obtain ⟨e0, hc0, ha0⟩ := hprev 0 (by omega)
      constructor <;>
        simp [getBlueprints, limitsToTry, getBlueprintsGo, hc0, ha0, hc, ha]
    · obtain ⟨e0, hc0, ha0⟩ := hprev 0 (by omega)
      obtain ⟨e1, hc1, ha1⟩ := hprev 1 (by omega)
      constructor <;>
        simp [getBlueprints, limitsToTry, getBlueprintsGo, hc0, ha0, hc1, ha1, hc, ha]

theorem getBlueprints_degradation_witness :
    (∀ i : ℕ, i < 3 →
      ∃ e, (fun _ : ℕ =>
          (Except.error ⟨.SERVER_ERROR, some 500⟩ : Except PrintifyError Unit)) i
        = .error e ∧ e.code ≠ .AUTH_FAILED) ∧
    getBlueprints
        (fun _ : ℕ => (Except.error ⟨.SERVER_ERROR, some 500⟩ : Except PrintifyError Unit))
        1 10
      = ⟨[5, 3, 1], .fallback (fallbackBlueprints 1 10)⟩ := by
  have hna : ∀ i : ℕ, i < 3 →
      ∃ e, (fun _ : ℕ =>
          (Except.error ⟨.SERVER_ERROR, some 500⟩ : Except PrintifyError Unit)) i
        = .error e ∧ e.code ≠ .AUTH_FAILED :=
    fun _ _ => ⟨⟨.SERVER_ERROR, some 500⟩, rfl, by decide⟩
  refine ⟨hna, ?_⟩
  have h := (getBlueprints_degradation
    (fun _ : ℕ => (Except.error ⟨.SERVER_ERROR, some 500⟩ : Except PrintifyError Unit))
    1 10).1 hna
  simpa using h.1

end PrintifyMCP
